import Mathlib

/-!
# Verification of `src/lib/formats/esq8_dsk.cpp` (Ensoniq 8-bit floppy format)

Shallow embedding of the `esq8img_format` floppy-format driver: the track
layout descriptor `esq_6_desc`, the geometry probe `find_size`, the format
scorer `identify`, the container→medium direction `load`, and the
medium→container direction `save`.

The bit-level MFM codec (`generate_track`, `generate_bitstream_from_track`,
`extract_sectors_from_bitstream_mfm_pc`) lives outside the translated sources;
where a claim depends on it, the codec is modelled from the specification, and
the definitions say so in their doc comments.

Machine integers are modelled as `Nat` (all quantities involved are
non-negative and no overflow is reachable at the sizes in play: offsets are at
most `80 * 5632` and sector sizes at most `1024`, far below 2^31/2^64).
`std::error_condition` results are modelled as `Option`: `none` for failure.
-/

namespace Esq8

/-! ## Container I/O model

`util::random_read` supplies a length query that can fail
(`io.length(size)` returns a truthy `std::error_condition` on error) and
offset-addressed byte reads. -/

/-- Model of the `util::random_read` container handed to `find_size` /
`identify` / `load`: a length query that may fail (`none`), and the byte
content at each offset. -/
structure IoModel where
  lengthResult : Option Nat
  byteAt : Nat → Nat

/-! ## Geometry probe (`find_size`, lines 76–91)

```cpp
uint64_t size;
if(!io.length(size))          // error_condition: truthy on error, so this
{                             // branch is the SUCCESS path of the query
    track_count = 80; head_count = 1; sector_count = 6;
    if(size == 5632 * 80) return;
}
track_count = head_count = sector_count = 0;
```
-/

/-- Embedding of `esq8img_format::find_size`: result `(track_count,
head_count, sector_count)`. When the length query succeeds the counts are set
to `(80, 1, 6)` and kept only if the length is exactly `5632 * 80`; every
other path ends at the final zeroing statement. -/
def find_size (io : IoModel) : Nat × Nat × Nat :=
  match io.lengthResult with
  | some size => if size = 5632 * 80 then (80, 1, 6) else (0, 0, 0)
  | none => (0, 0, 0)

/-- Embedding of `esq8img_format::identify` (lines 93–102): score 50 when the
probe reports a nonzero track count, 0 otherwise. -/
def identify (io : IoModel) : Nat :=
  if (find_size io).1 ≠ 0 then 50 else 0

/-! ## The `load` direction (lines 104–142)

`load` probes geometry, fixes the six sector descriptors (five of 1024
bytes, one of 512, `sector_id = i`), then for each `(track, head)` reads the
5632-byte track-record at offset `(track*head_count + head)*5632` and calls
`generate_track`.  It unconditionally sets the variant to `DSDD` and returns
`true`. -/

/-- The `floppy_image` variant constants that `load` can set. -/
inductive Variant where
  | DSDD
  | other
deriving DecidableEq, Repr

/-- Size assigned by `load` to the sector descriptor at position `i`
(lines 113–124): 1024 bytes for `i < 5`, 512 bytes for the last sector. -/
def loadSectorSize (i : Nat) : Nat :=
  if i < 5 then 1024 else 512

/-- Offset of sector `i` inside the 5632-byte track-record buffer
(`sectdata + 1024*i` for `i < 5`, `sectdata + 5*1024` for the last). -/
def loadSectorOff (i : Nat) : Nat :=
  if i < 5 then 1024 * i else 5 * 1024

/-- `sector_id` assigned by `load` to position `i` (lines 117 and 123). -/
def loadSectorId (i : Nat) : Nat := i

/-- Byte offset at which `load` reads the track-record of `(track, head)`
(line 134): `(track*head_count + head) * track_size` with
`track_size = 5*1024 + 512 = 5632`. -/
def loadReadOffset (head_count track head : Nat) : Nat :=
  (track * head_count + head) * 5632

/-- Observable effects of one `load` call. -/
structure LoadResult where
  result : Bool
  variant : Variant
  /-- `(offset, length)` of each `io.read_at` issued, in order. -/
  reads : List (Nat × Nat)
  /-- The `(track, head)` pairs passed to `generate_track`, in order. -/
  tracksGenerated : List (Nat × Nat)
deriving Repr

/-- Embedding of `esq8img_format::load`: the nested loops over
`track < track_count` and `head < head_count`, reading each track-record and
generating one physical track; then `set_variant(DSDD)` and `return true`. -/
def load (io : IoModel) : LoadResult :=
  let g := find_size io
  { result := true
    variant := Variant.DSDD
    reads := (List.range g.1).flatMap fun t =>
      (List.range g.2.1).map fun h => (loadReadOffset g.2.1 t h, 5632)
    tracksGenerated := (List.range g.1).flatMap fun t =>
      (List.range g.2.1).map fun h => (t, h) }

/-! ## The `save` direction (lines 144–189)

`save` probes the written medium with `get_geometry_mfm_pc`, forces the
counts to the canonical geometry, then walks `(track, head, sector)` in
lexicographic order: it extracts the sectors of each `(track, head)` from the
regenerated bitstream, checks each sector's size against the fixed policy,
and either writes the sector at the running file offset or reports an error
and returns `false` on the spot.

`get_geometry_mfm_pc`, `generate_bitstream_from_track` and
`extract_sectors_from_bitstream_mfm_pc` are outside the translated sources,
so `save` is modelled as a function of their results: the probed geometry
triple and, for each `(track, head)`, the list of extracted sector
payloads. -/

/-- Inputs that `save` receives from its collaborators: the geometry probe
result `(track_count, head_count, sector_count)` from `get_geometry_mfm_pc`,
and the per-`(track, head)` sector payloads produced by
`extract_sectors_from_bitstream_mfm_pc` (an absent sector index is the empty
vector, giving `size() = 0`). -/
structure SaveInput where
  probe : Nat × Nat × Nat
  extracted : Nat → Nat → List (List Nat)

/-- Size `save` expects of the sector at position `s` (lines 170–173):
1024 bytes for `s < 5`, 512 for the last sector. -/
def expectedSize (s : Nat) : Nat :=
  if s < 5 then 1024 else 512

/-- The geometry fix-up at lines 150–158: any probed track count becomes 80,
a zero head count (fully unformatted floppy) becomes 1, any probed sector
count becomes 6. -/
def adjust_geometry (g : Nat × Nat × Nat) : Nat × Nat × Nat :=
  (if g.1 ≠ 80 then 80 else g.1,
   if g.2.1 = 0 then 1 else g.2.1,
   if g.2.2 ≠ 6 then 6 else g.2.2)

/-- The `(track, head, sector)` triples visited by `save`'s three nested
loops, in iteration order. -/
def saveOrder (tc hc sc : Nat) : List (Nat × Nat × Nat) :=
  (List.range tc).flatMap fun t =>
    (List.range hc).flatMap fun h =>
      (List.range sc).map fun s => (t, h, s)

/-- The payload `save` sees for `(track, head, sector)`:
`extract_sectors_from_bitstream_mfm_pc(bitstream)[sector]`. -/
def extractedData (input : SaveInput) (t h s : Nat) : List Nat :=
  (input.extracted t h).getD s []

/-- Mutable state of one `save` call: the running `file_offset`, the
`io.write_at` calls issued so far (offset and data, in order), and the
`osd_printf_error` reports issued so far (track, sector, actual size — the
fields of the format string at line 177). -/
structure SaveState where
  fileOffset : Nat
  writes : List (Nat × List Nat)
  errors : List (Nat × Nat × Nat)
deriving Repr

/-- One pass of `save`'s sector loop over the remaining iteration triples:
check the extracted size against `expectedSize`; on mismatch report the error
and stop with `false` (the early `return false` at line 178); otherwise write
the sector at the running offset, advance the offset by the expected size,
and continue.  Returns the final state and the C++ return value. -/
def saveStep (input : SaveInput) : List (Nat × Nat × Nat) → SaveState → SaveState × Bool
  | [], st => (st, true)
  | (t, h, s) :: rest, st =>
    let data := extractedData input t h s
    if data.length ≠ expectedSize s then
      ({ st with errors := st.errors ++ [(t, s, data.length)] }, false)
    else
      saveStep input rest
        { fileOffset := st.fileOffset + expectedSize s
          writes := st.writes ++ [(st.fileOffset, data)]
          errors := st.errors }

/-- Embedding of `esq8img_format::save`: adjust the probed geometry, then run
the nested loops from a zero file offset with no writes or errors issued. -/
def save (input : SaveInput) : SaveState × Bool :=
  let g := adjust_geometry input.probe
  saveStep input (saveOrder g.1 g.2.1 g.2.2) ⟨0, [], []⟩

/-- The writes the sector loop issues for a run of matching triples starting
at file offset `off`: each triple's payload at the running offset. -/
def writesFor (input : SaveInput) : List (Nat × Nat × Nat) → Nat → List (Nat × List Nat)
  | [], _ => []
  | (t, h, s) :: rest, off =>
    (off, extractedData input t h s) :: writesFor input rest (off + expectedSize s)

/-- A write list is laid out consecutively from `off`: each write lands at
the end of the previous one (offset = `off` + sizes of all earlier writes). -/
def writesFrom : Nat → List (Nat × List Nat) → Prop
  | _, [] => True
  | off, (o, d) :: rest => o = off ∧ writesFrom (off + d.length) rest

/-- The iteration triples of one `save` call, after the geometry fix-up. -/
def saveTriples (input : SaveInput) : List (Nat × Nat × Nat) :=
  saveOrder (adjust_geometry input.probe).1 (adjust_geometry input.probe).2.1
    (adjust_geometry input.probe).2.2

/-- The size check of line 175 passes at iteration triple `x`. -/
def sectorMatches (input : SaveInput) (x : Nat × Nat × Nat) : Prop :=
  (extractedData input x.1 x.2.1 x.2.2).length = expectedSize x.2.2

instance (input : SaveInput) (x : Nat × Nat × Nat) :
    Decidable (sectorMatches input x) := by
  unfold sectorMatches; infer_instance

/-- Total expected byte count of a run of iteration triples. -/
def sumSizes (l : List (Nat × Nat × Nat)) : Nat :=
  (l.map fun x => expectedSize x.2.2).sum

/-! ## Track layout descriptor (lines 20–50)

The `desc_e` instruction vocabulary used by `esq_6_desc`, embedded as a
tagged variant; only the instruction kinds occurring in this format are
included.  Field order matches the C++ initializers `{ type, p1, p2 }`. -/

/-- One `floppy_image_format_t::desc_e` layout instruction. -/
inductive Desc where
  /-- `{ MFM, value, count }`: `count` normally-modulated copies of `value`. -/
  | mfm (value count : Nat)
  /-- `{ RAW, value, count }`: `count` copies of a raw 16-bit cell pattern,
  bypassing the modulation rules (used exclusively for sync marks). -/
  | raw (value count : Nat)
  /-- `{ SECTOR_LOOP_START, first, last }`. -/
  | sector_loop_start (first last : Nat)
  /-- `{ SECTOR_LOOP_END }`. -/
  | sector_loop_end
  /-- `{ CRC_CCITT_START, id }`. -/
  | crc_ccitt_start (id : Nat)
  /-- `{ CRC_END, id }`. -/
  | crc_end (id : Nat)
  /-- `{ CRC, id }`: emit the two checksum bytes of region `id`. -/
  | crc (id : Nat)
  /-- `{ TRACK_ID }`. -/
  | track_id
  /-- `{ HEAD_ID }`. -/
  | head_id
  /-- `{ SECTOR_ID }`. -/
  | sector_id
  /-- `{ SIZE_ID }`. -/
  | size_id
  /-- `{ SECTOR_DATA, which }` (`-1` = the current loop sector). -/
  | sector_data (which : Int)
  /-- `{ END }`. -/
  | end_
deriving DecidableEq, Repr

/-- `esq8img_format::esq_6_desc`, entry for entry from lines 20–50. -/
def esq_6_desc : List Desc :=
  [.mfm 0x4e 80,
   .mfm 0x00 12,
   .raw 0x5224 3,
   .mfm 0xfc 1,
   .mfm 0x4e 50,
   .mfm 0x00 12,
   .sector_loop_start 0 5,
   .crc_ccitt_start 1,
   .raw 0x4489 3,
   .mfm 0xfe 1,
   .track_id,
   .head_id,
   .sector_id,
   .size_id,
   .crc_end 1,
   .crc 1,
   .mfm 0x4e 22,
   .mfm 0x00 12,
   .crc_ccitt_start 2,
   .raw 0x4489 3,
   .mfm 0xfb 1,
   .sector_data (-1),
   .crc_end 2,
   .crc 2,
   .mfm 0x4e 84,
   .mfm 0x00 12,
   .sector_loop_end,
   .mfm 0x4e 170,
   .end_]

/-- The instructions before the sector loop of `esq_6_desc`. -/
def preDesc : List Desc :=
  [.mfm 0x4e 80, .mfm 0x00 12, .raw 0x5224 3, .mfm 0xfc 1,
   .mfm 0x4e 50, .mfm 0x00 12]

/-- The identification-field span of checksum region 1: sync marks, the
`0xfe` address mark, then track id, head id, sector id and size code. -/
def idRegion : List Desc :=
  [.raw 0x4489 3, .mfm 0xfe 1, .track_id, .head_id, .sector_id, .size_id]

/-- The data-field span of checksum region 2: sync marks, the `0xfb` data
mark, then the sector payload. -/
def dataRegion : List Desc :=
  [.raw 0x4489 3, .mfm 0xfb 1, .sector_data (-1)]

/-- The repeated per-sector body of `esq_6_desc` (between the loop
markers). -/
def bodyDesc : List Desc :=
  [.crc_ccitt_start 1] ++ idRegion ++ [.crc_end 1, .crc 1] ++
  [.mfm 0x4e 22, .mfm 0x00 12] ++
  [.crc_ccitt_start 2] ++ dataRegion ++ [.crc_end 2, .crc 2] ++
  [.mfm 0x4e 84, .mfm 0x00 12]

/-- The instructions after the sector loop of `esq_6_desc`. -/
def postDesc : List Desc :=
  [.mfm 0x4e 170, .end_]

/-- Is this instruction a `SECTOR_LOOP_START`? -/
def isLoopStart : Desc → Bool
  | .sector_loop_start _ _ => true
  | _ => false

/-- Is this instruction a `SECTOR_LOOP_END`? -/
def isLoopEnd : Desc → Bool
  | .sector_loop_end => true
  | _ => false

/-- Iteration count of a `SECTOR_LOOP_START first last` instruction:
sector indices `first` through `last` inclusive. -/
def loopIterationCount : Desc → Nat
  | .sector_loop_start first last => last + 1 - first
  | _ => 0

/-! ## Spec-modelled track codec

`generate_track` (the descriptor interpreter behind `load`) and
`generate_bitstream_from_track` / `extract_sectors_from_bitstream_mfm_pc`
(the decoding pipeline behind `save`) are not in the translated sources.
For the round-trip property they are modelled from the spec (§4.3 Track
Encoder, §4.4 Track Decoder): the track is a sequence of cells, each either
a normally modulated data byte or a raw out-of-band sync pattern — the spec
guarantees raw sync patterns violate the modulation clocking rules and can
never arise from modulated data bytes, which the tagged representation
captures — and the decoder locates sector fields by scanning for the sync
patterns and validating the CCITT checksums over the same spans the encoder
covered. -/

/-- Modelled from the spec: one physical cell of an encoded track, either a
normally modulated (`MFM`) data byte or a raw 16-bit sync cell pattern
(`RAW`), which normal modulation can never produce. -/
inductive Cell where
  | mfm (b : Nat)
  | raw (v : Nat)
deriving DecidableEq, Repr

/-- The byte a cell contributes to a checksum span (a raw 16-bit pattern
contributes its low data byte; encoder and decoder only need to agree). -/
def cellByte : Cell → Nat
  | .mfm b => b
  | .raw v => v % 256

/-- One bit step of the CRC-CCITT engine (polynomial `0x1021`): shift the
16-bit register left and fold in the polynomial when the shifted-out bit
differs from the incoming data bit. -/
def crcBitStep (c bit : Nat) : Nat :=
  let hi := c / 32768 % 2
  let c2 := c * 2 % 65536
  if hi ≠ bit then Nat.xor c2 4129 else c2

/-- Fold one byte, most significant bit first, into the CRC register. -/
def crcByteStep (c b : Nat) : Nat :=
  (List.range 8).foldl (fun acc i => crcBitStep acc (b / 2 ^ (7 - i) % 2)) c

/-- Modelled from the spec (§4.1 Checksum Engine): the 16-bit CCITT code of
a byte span, from the customary `0xffff` seed. -/
def crc16 (bytes : List Nat) : Nat :=
  bytes.foldl crcByteStep 0xffff

/-- The two checksum bytes emitted by a `CRC` instruction, high byte
first. -/
def crcBytes (bytes : List Nat) : List Nat :=
  [crc16 bytes / 256 % 256, crc16 bytes % 256]

/-- A sector passed to the codec: the `desc_s` record (id, size, payload). -/
structure SectorSpec where
  sector_id : Nat
  size : Nat
  data : List Nat
deriving DecidableEq, Repr

/-- Modelled from the spec: the size code emitted for `SIZE_ID`
(IBM convention: 1024-byte sectors code 3, 512-byte sectors code 2). -/
def sizeCode (size : Nat) : Nat :=
  if size = 1024 then 3 else if size = 512 then 2 else 0

/-- Placeholder sector for positions outside the sector array. -/
def dummySec : SectorSpec := ⟨0, 0, []⟩

/-- Encoder state: emitted cells plus the two checksum regions of
`esq_6_desc` (ids 1 and 2), each an open flag and the accumulated span. -/
structure EncSt where
  out : List Cell
  open1 : Bool
  open2 : Bool
  buf1 : List Nat
  buf2 : List Nat
deriving Repr

/-- Emit cells: append them to the output and fold their bytes into every
open checksum region. -/
def emitCells (st : EncSt) (cs : List Cell) : EncSt :=
  { out := st.out ++ cs
    open1 := st.open1
    open2 := st.open2
    buf1 := st.buf1 ++ if st.open1 then cs.map cellByte else []
    buf2 := st.buf2 ++ if st.open2 then cs.map cellByte else [] }

/-- Modelled from the spec (§4.3 Track Encoder): the effect of one straight
-line layout instruction on the encoder state, at track `t`, head `h`, with
current loop sector `sec` (loop markers and `END` are driver concerns and
leave the state unchanged here). -/
def applyDesc (t h : Nat) (sec : SectorSpec) (st : EncSt) : Desc → EncSt
  | .mfm v n => emitCells st (List.replicate n (.mfm v))
  | .raw v n => emitCells st (List.replicate n (.raw v))
  | .track_id => emitCells st [.mfm t]
  | .head_id => emitCells st [.mfm h]
  | .sector_id => emitCells st [.mfm sec.sector_id]
  | .size_id => emitCells st [.mfm (sizeCode sec.size)]
  | .sector_data _ => emitCells st (sec.data.map .mfm)
  | .crc_ccitt_start i =>
    if i = 1 then { st with open1 := true, buf1 := [] }
    else { st with open2 := true, buf2 := [] }
  | .crc_end i =>
    if i = 1 then { st with open1 := false } else { st with open2 := false }
  | .crc i =>
    emitCells st ((crcBytes (if i = 1 then st.buf1 else st.buf2)).map .mfm)
  | _ => st

/-- Run a straight-line instruction sequence left to right. -/
def runSeq (t h : Nat) (sec : SectorSpec) : List Desc → EncSt → EncSt
  | [], st => st
  | d :: rest, st => runSeq t h sec rest (applyDesc t h sec st d)

/-- Split a descriptor at its first `SECTOR_LOOP_END`. -/
def splitAtLoopEnd : List Desc → List Desc × List Desc
  | [] => ([], [])
  | .sector_loop_end :: rest => ([], rest)
  | d :: rest =>
    let p := splitAtLoopEnd rest
    (d :: p.1, p.2)

/-- Split a descriptor at its first `SECTOR_LOOP_START`: the prefix, the
loop bounds, and the remainder. -/
def splitAtLoopStart : List Desc → List Desc × Nat × Nat × List Desc
  | [] => ([], 0, 0, [])
  | .sector_loop_start f l :: rest => ([], f, l, rest)
  | d :: rest =>
    let p := splitAtLoopStart rest
    (d :: p.1, p.2)

/-- Modelled from the spec (§4.3): interpret a layout descriptor over a
sector array: run the prefix, repeat the loop body once per sector index
from `first` to `last` (each iteration reading the matching sector spec),
run the suffix; the encoded track is the emitted cell sequence. -/
def encodeTrack (desc : List Desc) (t h : Nat) (secs : List SectorSpec) :
    List Cell :=
  let p := splitAtLoopStart desc
  let q := splitAtLoopEnd p.2.2.2
  let st0 := runSeq t h dummySec p.1 ⟨[], false, false, [], []⟩
  let st1 := (List.range (p.2.2.1 + 1 - p.2.1)).foldl
    (fun st k => runSeq t h (secs.getD (p.2.1 + k) dummySec) q.1 st) st0
  (runSeq t h dummySec q.2 st1).out

/-- Is this cell the `0x4489` sync mark? -/
def isSync : Cell → Bool
  | .raw v => v == 0x4489
  | _ => false

/-- The checksum byte contributed by one `0x4489` sync cell. -/
def syncByte : Nat := cellByte (.raw 0x4489)

/-- Modelled from the spec (§4.4): scan for the next run of three `0x4489`
sync cells and return the suffix after it; `none` if the track holds no
further sync run. -/
def findSync : List Cell → Option (List Cell)
  | [] => none
  | c :: rest =>
    if isSync c then
      match rest with
      | r2 :: r3 :: rest2 =>
        if isSync r2 && isSync r3 then some rest2 else findSync rest
      | _ => findSync rest
    else findSync rest

/-- Read `n` normally modulated bytes; fail on a raw cell or exhaustion. -/
def readBytes : Nat → List Cell → Option (List Nat × List Cell)
  | 0, l => some ([], l)
  | n + 1, .mfm b :: l =>
    match readBytes n l with
    | some (bs, r) => some (b :: bs, r)
    | none => none
  | _ + 1, _ => none

/-- Modelled from the spec (§4.4 Track Decoder): recover one sector: find
the identification sync run, validate the identification-field checksum over
the same span the encoder covered, take the sector id from the validated
field; find the data sync run, read exactly `expected[sector_id]` payload
bytes and validate the data-field checksum.  Any sync, framing or checksum
failure yields `none`. -/
def decodeSector (expected : List Nat) (cells : List Cell) :
    Option ((Nat × List Nat) × List Cell) :=
  match findSync cells with
  | none => none
  | some after1 =>
    match after1 with
    | .mfm m :: .mfm t :: .mfm h :: .mfm s :: .mfm sc :: .mfm c1 :: .mfm c2
        :: rest =>
      if m = 0xfe ∧
          [c1, c2] = crcBytes [syncByte, syncByte, syncByte, m, t, h, s, sc]
      then
        match findSync rest with
        | none => none
        | some after2 =>
          match after2 with
          | .mfm m2 :: rest2 =>
            if m2 = 0xfb then
              match readBytes (expected.getD s 0) rest2 with
              | none => none
              | some (payload, rest3) =>
                match rest3 with
                | .mfm d1 :: .mfm d2 :: rest4 =>
                  if [d1, d2] =
                      crcBytes ([syncByte, syncByte, syncByte, m2] ++ payload)
                  then some ((s, payload), rest4)
                  else none
                | _ => none
            else none
          | _ => none
      else none
    | _ => none

/-- Modelled from the spec: decode up to `fuel` sectors in scan order,
stopping at the first slot with no further recoverable sector. -/
def decodeTrack (expected : List Nat) : Nat → List Cell → List (Nat × List Nat)
  | 0, _ => []
  | n + 1, cells =>
    match decodeSector expected cells with
    | none => []
    | some (sec, rest) => sec :: decodeTrack expected n rest

/-- The per-position payload sizes of the supported geometry. -/
def esqSizes : List Nat := [1024, 1024, 1024, 1024, 1024, 512]

/-- The canonical six sector specs over payload list `ds`. -/
def esqSectors (ds : List (List Nat)) : List SectorSpec :=
  (List.range 6).map fun i => ⟨i, expectedSize i, ds.getD i []⟩

/-! Reference shapes of the encoded track, used to state and prove the
round-trip property. -/

/-- Three `0x4489` sync cells. -/
def syncTriple : List Cell := [.raw 0x4489, .raw 0x4489, .raw 0x4489]

/-- The byte span covered by checksum region 1 (identification field). -/
def idSpanBytes (t h sid code : Nat) : List Nat :=
  [syncByte, syncByte, syncByte, 0xfe, t, h, sid, code]

/-- The byte span covered by checksum region 2 (data field). -/
def dataSpanBytes (d : List Nat) : List Nat :=
  [syncByte, syncByte, syncByte, 0xfb] ++ d

/-- The cells emitted before the sector loop of `esq_6_desc`. -/
def preCells : List Cell :=
  List.replicate 80 (.mfm 0x4e) ++ List.replicate 12 (.mfm 0x00) ++
  List.replicate 3 (.raw 0x5224) ++ [.mfm 0xfc] ++
  List.replicate 50 (.mfm 0x4e) ++ List.replicate 12 (.mfm 0x00)

/-- The gap between identification and data fields. -/
def gapACells : List Cell :=
  List.replicate 22 (.mfm 0x4e) ++ List.replicate 12 (.mfm 0x00)

/-- The gap after each data field. -/
def gapBCells : List Cell :=
  List.replicate 84 (.mfm 0x4e) ++ List.replicate 12 (.mfm 0x00)

/-- The cells emitted after the sector loop of `esq_6_desc`. -/
def postCells : List Cell := List.replicate 170 (.mfm 0x4e)

/-- The cells one loop iteration of `esq_6_desc` emits for sector `sec`. -/
def sectorBlock (t h : Nat) (sec : SectorSpec) : List Cell :=
  syncTriple ++
  [.mfm 0xfe, .mfm t, .mfm h, .mfm sec.sector_id, .mfm (sizeCode sec.size)] ++
  (crcBytes (idSpanBytes t h sec.sector_id (sizeCode sec.size))).map .mfm ++
  gapACells ++
  syncTriple ++ [.mfm 0xfb] ++ sec.data.map .mfm ++
  (crcBytes (dataSpanBytes sec.data)).map .mfm ++
  gapBCells

end Esq8

namespace Esq8

/-! ## Claims about the geometry probe and `load` -/

/-- Closed form of the geometry probe: `(80, 1, 6)` exactly on a successful
length query of `450560 = 5632 * 80` bytes, the zero geometry otherwise. -/
theorem find_size_eq (io : IoModel) :
    find_size io =
      if io.lengthResult = some 450560 then (80, 1, 6) else (0, 0, 0) := by
  cases hio : io.lengthResult with
  | none => unfold find_size; rw [hio]; rfl
  | some n =>
    have hfs : find_size io = if n = 5632 * 80 then (80, 1, 6) else (0, 0, 0) := by
      unfold find_size; rw [hio]
    rw [hfs]
    by_cases hn : n = 5632 * 80
    · subst hn
      rw [if_pos rfl, if_pos rfl]
    · have h2 : ¬ ((some n : Option Nat) = some 450560) := by
        intro h
        apply hn
        injection h with h
      rw [if_neg hn, if_neg h2]

/-- **C1.** Geometry recognition: whenever the length query succeeds,
`find_size` reports `(80, 1, 6)` exactly when the container length is
`80 * 1 * 5632 = 450560` bytes; for any other length, and when the length
query fails, it reports the zero geometry `(0, 0, 0)` (and never anything
else). -/
theorem c1_find_size_recognition (io : IoModel) :
    (find_size io = (80, 1, 6) ↔ io.lengthResult = some 450560) ∧
    (find_size io = (80, 1, 6) ∨ find_size io = (0, 0, 0)) := by
  rw [find_size_eq]
  by_cases h : io.lengthResult = some 450560
  · rw [if_pos h]
    exact ⟨⟨fun _ => h, fun _ => rfl⟩, Or.inl rfl⟩
  · rw [if_neg h]
    exact ⟨⟨fun hc => absurd hc (by decide), fun hc => absurd hc h⟩, Or.inr rfl⟩

/-- Witness for C1 at concrete containers: a 450560-byte container is
recognized; a 450561-byte one gets the zero geometry. -/
theorem c1_find_size_recognition_witness :
    find_size ⟨some 450560, fun _ => 0⟩ = (80, 1, 6) ∧
    find_size ⟨some 450561, fun _ => 0⟩ = (0, 0, 0) := by
  constructor
  · exact (c1_find_size_recognition ⟨some 450560, fun _ => 0⟩).1.2 rfl
  · rcases (c1_find_size_recognition ⟨some 450561, fun _ => 0⟩).2 with h | h
    · exact absurd ((c1_find_size_recognition ⟨some 450561, fun _ => 0⟩).1.1 h)
        (by decide)
    · exact h

/-- **C10.** `identify` returns 50 exactly when the probe recognizes the
container (nonzero track count, equivalently a successful length query with
length 450560), 0 otherwise, and these are the only two values. -/
theorem c10_identify_score (io : IoModel) :
    (identify io = 50 ↔ (find_size io).1 ≠ 0) ∧
    ((find_size io).1 ≠ 0 ↔ io.lengthResult = some 450560) ∧
    (identify io = 50 ∨ identify io = 0) := by
  refine ⟨?_, ?_, ?_⟩
  · unfold identify
    by_cases h : (find_size io).1 ≠ 0 <;> simp [h]
  · rw [find_size_eq]
    by_cases h : io.lengthResult = some 450560
    · rw [if_pos h]; simpa using h
    · rw [if_neg h]; simpa using h
  · unfold identify
    by_cases h : (find_size io).1 ≠ 0 <;> simp [h]

/-! ## Claims about `load`'s size policy and return value -/

/-- **C3.** `load` is claimed to return `false` whenever a recovered sector's
payload size mismatches the fixed policy and `true` otherwise.  The mismatch
case is unsatisfiable: `load` builds its sector descriptors itself (lines
111–125) with exactly the policy sizes, so the sizes always match and `load`
returns `true` on every path — which together make the claimed conditional
hold (its failure branch is unreachable rather than refuted). -/
theorem c3_load_size_policy :
    (∀ io : IoModel, (load io).result = true) ∧
    ((List.range 6).all fun i => loadSectorSize i == expectedSize i) = true :=
  ⟨fun _ => rfl, by decide⟩

/-- Auxiliary: the nested `(track, head)` loop visits `tc * hc` pairs. -/
theorem length_trackHeadPairs (tc hc : Nat) :
    ((List.range tc).flatMap fun t =>
      (List.range hc).map fun h => (t, h)).length = tc * hc := by
  induction tc with
  | zero => simp
  | succ n ih =>
    rw [List.range_succ, List.flatMap_append]
    simp [ih, Nat.succ_mul]

/-- **C9.** `load` returns `true` for every input; it sets the variant to
`DSDD` unconditionally; with the zero geometry (unrecognized container) it
generates no tracks at all — so the return value never distinguishes a
recognized container from an unrecognized one. -/
theorem c9_load_unconditional_success (io : IoModel) :
    (load io).result = true ∧
    (load io).variant = Variant.DSDD ∧
    (load io).tracksGenerated.length = (find_size io).1 * (find_size io).2.1 ∧
    (find_size io = (0, 0, 0) → (load io).tracksGenerated = []) := by
  refine ⟨rfl, rfl, ?_, ?_⟩
  · exact length_trackHeadPairs _ _
  · intro h
    show ((List.range (find_size io).1).flatMap fun t =>
      (List.range (find_size io).2.1).map fun h => (t, h)) = []
    rw [h]
    rfl

/-- Witness for C9 at a container whose length query fails: the zero
geometry, no generated tracks, and still a `true` result. -/
theorem c9_load_unconditional_success_witness :
    (load ⟨none, fun _ => 0⟩).result = true ∧
    (load ⟨none, fun _ => 0⟩).tracksGenerated = [] :=
  ⟨(c9_load_unconditional_success ⟨none, fun _ => 0⟩).1,
   (c9_load_unconditional_success ⟨none, fun _ => 0⟩).2.2.2 rfl⟩

/-! ## Claims about `save`'s geometry fix-up -/

/-- Membership in the iteration-triple list. -/
theorem mem_saveOrder (tc hc sc t h s : Nat) :
    (t, h, s) ∈ saveOrder tc hc sc ↔ t < tc ∧ h < hc ∧ s < sc := by
  simp only [saveOrder, List.mem_flatMap, List.mem_map, List.mem_range]
  constructor
  · rintro ⟨a, ha, b, hb, c, hc', heq⟩
    obtain ⟨rfl, rfl, rfl⟩ : a = t ∧ b = h ∧ c = s := by
      simpa [Prod.ext_iff] using heq
    exact ⟨ha, hb, hc'⟩
  · rintro ⟨ht, hh, hs⟩
    exact ⟨t, ht, h, hh, s, hs, rfl⟩

/-- **C5.** `save` forces the extraction geometry to the canonical one: the
adjusted track count is always 80 and the adjusted sector count always 6,
whatever the probe reported; the head count is raised to 1 exactly when the
probe reported 0 heads and kept as probed otherwise (hence always at least
1); and `save` iterates over exactly the triples `(t, h, s)` with `t < 80`,
`h <` adjusted head count, `s < 6`. -/
theorem c5_save_forces_canonical_geometry (input : SaveInput) :
    (adjust_geometry input.probe).1 = 80 ∧
    (adjust_geometry input.probe).2.2 = 6 ∧
    (adjust_geometry input.probe).2.1 =
      (if input.probe.2.1 = 0 then 1 else input.probe.2.1) ∧
    1 ≤ (adjust_geometry input.probe).2.1 ∧
    save input = saveStep input (saveTriples input) ⟨0, [], []⟩ ∧
    (∀ t h s, (t, h, s) ∈ saveTriples input ↔
      t < 80 ∧ h < (adjust_geometry input.probe).2.1 ∧ s < 6) := by
  have h1 : (adjust_geometry input.probe).1 = 80 := by
    unfold adjust_geometry
    by_cases h : input.probe.1 ≠ 80 <;> simp [h]
    omega
  have h2 : (adjust_geometry input.probe).2.2 = 6 := by
    unfold adjust_geometry
    by_cases h : input.probe.2.2 ≠ 6 <;> simp [h]
    omega
  refine ⟨h1, h2, rfl, ?_, rfl, ?_⟩
  · unfold adjust_geometry
    by_cases h : input.probe.2.1 = 0 <;> simp [h]
    omega
  · intro t h s
    unfold saveTriples
    rw [h1, h2]
    exact mem_saveOrder ..

/-! ## Claims about `save`'s error handling and write layout -/

/-- Every expected sector size is positive (512 or 1024 bytes). -/
theorem expectedSize_pos (s : Nat) : 0 < expectedSize s := by
  unfold expectedSize
  split <;> norm_num

/-- `sumSizes` of a cons. -/
theorem sumSizes_cons (x : Nat × Nat × Nat) (l : List (Nat × Nat × Nat)) :
    sumSizes (x :: l) = expectedSize x.2.2 + sumSizes l := by
  simp [sumSizes]

/-- Running the sector loop over a run of size-matching triples followed by
anything: the matching prefix is consumed, writing each sector at the running
offset and touching no error state. -/
theorem saveStep_prefix (input : SaveInput) :
    ∀ (pre rest : List (Nat × Nat × Nat)) (st : SaveState),
      (∀ x ∈ pre, sectorMatches input x) →
      saveStep input (pre ++ rest) st =
        saveStep input rest
          ⟨st.fileOffset + sumSizes pre,
           st.writes ++ writesFor input pre st.fileOffset, st.errors⟩ := by
  intro pre
  induction pre with
  | nil =>
    intro rest st _
    simp [sumSizes, writesFor]
  | cons x pre ih =>
    intro rest st hall
    obtain ⟨t, h, s⟩ := x
    have hm : sectorMatches input (t, h, s) := hall _ (List.mem_cons_self _ _)
    rw [List.cons_append]
    show saveStep input ((t, h, s) :: (pre ++ rest)) st = _
    rw [saveStep, if_neg (by simpa [sectorMatches] using hm)]
    rw [ih _ _ fun y hy => hall y (List.mem_cons_of_mem _ hy)]
    congr 1
    rw [sumSizes_cons, writesFor]
    simp [List.append_assoc, Nat.add_assoc]

/-- The writes of a size-matching run are laid out consecutively from their
starting offset. -/
theorem writesFor_writesFrom (input : SaveInput) :
    ∀ (l : List (Nat × Nat × Nat)) (off : Nat),
      (∀ x ∈ l, sectorMatches input x) →
      writesFrom off (writesFor input l off) := by
  intro l
  induction l with
  | nil => intro off _; trivial
  | cons x l ih =>
    intro off hall
    obtain ⟨t, h, s⟩ := x
    have hm : sectorMatches input (t, h, s) := hall _ (List.mem_cons_self _ _)
    rw [writesFor, writesFrom]
    refine ⟨rfl, ?_⟩
    rw [show (extractedData input t h s).length = expectedSize s from hm]
    exact ih _ fun y hy => hall y (List.mem_cons_of_mem _ hy)

/-- Every write of a size-matching run carries a nonempty payload. -/
theorem writesFor_pos (input : SaveInput) :
    ∀ (l : List (Nat × Nat × Nat)) (off : Nat),
      (∀ x ∈ l, sectorMatches input x) →
      ∀ p ∈ writesFor input l off, 0 < p.2.length := by
  intro l
  induction l with
  | nil =>
    intro off _ p hp
    rw [writesFor] at hp
    cases hp
  | cons x l ih =>
    intro off hall p hp
    obtain ⟨t, h, s⟩ := x
    rw [writesFor] at hp
    rcases List.mem_cons.1 hp with rfl | hp
    · have hm : (extractedData input t h s).length = expectedSize s :=
        hall _ (List.mem_cons_self _ _)
      show 0 < (extractedData input t h s).length
      rw [hm]
      exact expectedSize_pos s
    · exact ih _ (fun y hy => hall y (List.mem_cons_of_mem _ hy)) p hp

/-- Consecutively laid-out writes with nonempty payloads have strictly
ascending offsets. -/
theorem writesFrom_chain :
    ∀ (w : List (Nat × List Nat)) (off : Nat),
      writesFrom off w → (∀ p ∈ w, 0 < p.2.length) →
      List.Chain' (fun a b => a.1 < b.1) w := by
  intro w
  induction w with
  | nil => intro off _ _; exact List.chain'_nil
  | cons p w ih =>
    intro off hw hpos
    obtain ⟨o, d⟩ := p
    rw [writesFrom] at hw
    obtain ⟨ho, hw⟩ := hw
    cases w with
    | nil => exact List.chain'_singleton _
    | cons q w' =>
      obtain ⟨o2, d2⟩ := q
      have hq : o2 = off + d.length := by
        rw [writesFrom] at hw
        exact hw.1
      rw [List.chain'_cons]
      refine ⟨?_, ih _ hw fun p hp => hpos p (List.mem_cons_of_mem _ hp)⟩
      have hd : 0 < d.length := hpos (o, d) (List.mem_cons_self _ _)
      show o < o2
      omega

/-- First-failure decomposition: either every triple of a run passes the size
check, or the run splits at the first failing triple. -/
theorem firstMismatch (input : SaveInput) :
    ∀ l : List (Nat × Nat × Nat),
      (∀ x ∈ l, sectorMatches input x) ∨
      ∃ pre x post, l = pre ++ x :: post ∧
        (∀ y ∈ pre, sectorMatches input y) ∧ ¬ sectorMatches input x := by
  intro l
  induction l with
  | nil => exact Or.inl fun x hx => absurd hx (List.not_mem_nil x)
  | cons x l ih =>
    by_cases hx : sectorMatches input x
    · rcases ih with hall | ⟨pre, y, post, heq, hpre, hy⟩
      · left
        intro z hz
        rcases List.mem_cons.1 hz with rfl | hz
        · exact hx
        · exact hall z hz
      · right
        refine ⟨x :: pre, y, post, by simp [heq], ?_, hy⟩
        intro z hz
        rcases List.mem_cons.1 hz with rfl | hz
        · exact hx
        · exact hpre z hz
    · right
      exact ⟨[], x, l, rfl, fun y hy => absurd hy (List.not_mem_nil y), hx⟩

/-- **C4.** If some extracted sector's size violates the policy, `save`
reports one error carrying the track index, sector index and actual size,
returns `false`, and issues writes exactly for the iteration triples strictly
before the first failing one (so none for the failing sector or any later
triple); if every extracted sector matches, `save` issues all writes, reports
no error, and returns `true`. -/
theorem c4_save_size_mismatch_aborts (input : SaveInput) :
    ((∀ x ∈ saveTriples input, sectorMatches input x) →
      save input = (⟨sumSizes (saveTriples input),
        writesFor input (saveTriples input) 0, []⟩, true)) ∧
    (∀ pre t h s post, saveTriples input = pre ++ (t, h, s) :: post →
      (∀ x ∈ pre, sectorMatches input x) →
      ¬ sectorMatches input (t, h, s) →
      save input = (⟨sumSizes pre, writesFor input pre 0,
        [(t, s, (extractedData input t h s).length)]⟩, false)) := by
  have hsave : save input = saveStep input (saveTriples input) ⟨0, [], []⟩ := rfl
  constructor
  · intro hall
    have h2 := saveStep_prefix input (saveTriples input) [] ⟨0, [], []⟩ hall
    rw [List.append_nil] at h2
    rw [hsave, h2]
    simp [saveStep]
  · intro pre t h s post heq hpre hmis
    have h2 := saveStep_prefix input pre ((t, h, s) :: post) ⟨0, [], []⟩ hpre
    rw [hsave, heq, h2]
    simp only [saveStep]
    rw [if_pos (by simpa [sectorMatches] using hmis)]
    simp

/-- Witness for C4 at a fully unformatted medium (empty extraction
everywhere): the very first iteration triple `(0, 0, 0)` fails the size
check with actual size 0, so `save` reports exactly that error, issues no
write at all, and returns `false`. -/
theorem c4_save_size_mismatch_aborts_witness :
    save ⟨(0, 0, 0), fun _ _ => []⟩ = (⟨0, [], [(0, 0, 0)]⟩, false) := by
  have h := (c4_save_size_mismatch_aborts ⟨(0, 0, 0), fun _ _ => []⟩).2
    [] 0 0 0 (saveTriples ⟨(0, 0, 0), fun _ _ => []⟩).tail
    rfl (by intro x hx; cases hx) (by decide)
  simpa [sumSizes, writesFor, extractedData] using h

/-- The write list of any `save` call is the consecutive layout of some run
of size-matching triples (the whole iteration on success, the prefix before
the first failing sector otherwise). -/
theorem save_writes_shape (input : SaveInput) :
    ∃ pre, (∀ x ∈ pre, sectorMatches input x) ∧
      (save input).1.writes = writesFor input pre 0 := by
  have hsave : save input = saveStep input (saveTriples input) ⟨0, [], []⟩ := rfl
  rcases firstMismatch input (saveTriples input) with hall | ⟨pre, x, post, heq, hpre, hmis⟩
  · refine ⟨saveTriples input, hall, ?_⟩
    have h2 := saveStep_prefix input (saveTriples input) [] ⟨0, [], []⟩ hall
    rw [List.append_nil] at h2
    rw [hsave, h2]
    simp [saveStep]
  · obtain ⟨t, h, s⟩ := x
    refine ⟨pre, hpre, ?_⟩
    have h2 := saveStep_prefix input pre ((t, h, s) :: post) ⟨0, [], []⟩ hpre
    rw [hsave, heq, h2]
    simp only [saveStep]
    rw [if_pos (by simpa [sectorMatches] using hmis)]
    simp

/-- **C6.** Container offset mapping.  `load` reads the track-record of
`(track, head)` at byte offset `(track * head_count + head) * 5632` and
slices it into five 1024-byte sectors followed by one 512-byte sector at
consecutive ascending offsets, with `sector_id i = i`.  Within one `save`
call the issued write offsets are strictly ascending, each write landing at
the sum of the sizes of all previously written sectors (offset 0 first), and
one full track-record's six sectors total `5 * 1024 + 512 = 5632`
consecutive bytes. -/
theorem c6_container_offset_mapping (io : IoModel) (input : SaveInput) :
    ((load io).reads = (List.range (find_size io).1).flatMap fun t =>
      (List.range (find_size io).2.1).map fun h =>
        ((t * (find_size io).2.1 + h) * 5632, 5632)) ∧
    loadSectorOff 0 = 0 ∧
    ((List.range 5).all fun i =>
      loadSectorOff i + loadSectorSize i == loadSectorOff (i + 1)) = true ∧
    loadSectorOff 5 + loadSectorSize 5 = 5632 ∧
    ((List.range 6).all fun i => loadSectorId i == i) = true ∧
    ((List.range 6).map expectedSize).sum = 5632 ∧
    writesFrom 0 (save input).1.writes ∧
    List.Chain' (fun a b => a.1 < b.1) (save input).1.writes := by
  obtain ⟨pre, hpre, hw⟩ := save_writes_shape input
  refine ⟨rfl, by decide, by decide, by decide, by decide, by decide, ?_, ?_⟩
  · rw [hw]
    exact writesFor_writesFrom input pre 0 hpre
  · rw [hw]
    exact writesFrom_chain _ 0 (writesFor_writesFrom input pre 0 hpre)
      (writesFor_pos input pre 0 hpre)

/-! ## Claims about the layout descriptor -/

/-- **C7.** `esq_6_desc` is well-formed: it is exactly a prefix, one
`SECTOR_LOOP_START 0 5` (with matching single `SECTOR_LOOP_END`) enclosing
the per-sector body, and a suffix ending in `END`; the loop iterates the
sector indices 0 through 5, i.e. exactly `sector_count = 6` times; inside
the body each `CRC_CCITT_START` (ids 1 and 2) is followed by the `CRC_END`
of the same id and then the `CRC` emit of the same id, region 1 enclosing
the identification field (`0xfe` mark, track id, head id, sector id, size
code) and region 2 enclosing the data field (`0xfb` mark and sector
payload). -/
theorem c7_desc_well_formed :
    esq_6_desc =
      preDesc ++ [.sector_loop_start 0 5] ++ bodyDesc ++ [.sector_loop_end]
        ++ postDesc ∧
    esq_6_desc.countP (fun d => isLoopStart d) = 1 ∧
    esq_6_desc.countP (fun d => isLoopEnd d) = 1 ∧
    loopIterationCount (.sector_loop_start 0 5) = 6 ∧
    bodyDesc =
      [.crc_ccitt_start 1] ++ idRegion ++ [.crc_end 1, .crc 1] ++
      [.mfm 0x4e 22, .mfm 0x00 12] ++
      [.crc_ccitt_start 2] ++ dataRegion ++ [.crc_end 2, .crc 2] ++
      [.mfm 0x4e 84, .mfm 0x00 12] ∧
    idRegion = [.raw 0x4489 3, .mfm 0xfe 1, .track_id, .head_id,
      .sector_id, .size_id] ∧
    dataRegion = [.raw 0x4489 3, .mfm 0xfb 1, .sector_data (-1)] ∧
    esq_6_desc.getLast? = some .end_ := by
  refine ⟨by decide, by decide, by decide, by decide, by decide, by decide,
    by decide, by decide⟩

/-- **C8.** In `esq_6_desc`, the two sync-mark cell patterns `0x5224` and
`0x4489` occur only as `RAW` instructions, every `RAW` instruction carries
one of these two values, and no `MFM` (normally modulated) instruction
carries either value — so no data byte travels through the clock-violating
path and no sync pattern through the modulated path. -/
theorem c8_sync_marks_raw_only :
    (esq_6_desc.all fun d =>
      match d with
      | .raw v _ => v == 0x5224 || v == 0x4489
      | .mfm v _ => !(v == 0x5224) && !(v == 0x4489)
      | _ => true) = true := by
  decide

/-! ## The round-trip property of the spec-modelled codec -/

/-- Where the sector loop of `esq_6_desc` starts: the prefix, bounds 0–5,
and the rest of the program. -/
theorem split_start_desc :
    splitAtLoopStart esq_6_desc =
      (preDesc, 0, 5, bodyDesc ++ .sector_loop_end :: postDesc) := by
  decide

/-- The loop body of `esq_6_desc` ends at the matching `SECTOR_LOOP_END`. -/
theorem split_end_desc :
    splitAtLoopEnd (bodyDesc ++ .sector_loop_end :: postDesc) =
      (bodyDesc, postDesc) := by
  decide

/-- Checksum bytes of modulated data cells are the data bytes themselves. -/
theorem map_cellByte_mfm (d : List Nat) : d.map (cellByte ∘ Cell.mfm) = d := by
  simp [Function.comp_def, cellByte]

/-- One loop iteration of the encoder over the body of `esq_6_desc`, from
any state with both checksum regions closed: it appends exactly the
reference `sectorBlock` and leaves the regions closed, the final region
buffers holding the identification-field and data-field spans. -/
theorem bodyRun (t h : Nat) (sec : SectorSpec) (out : List Cell)
    (b1 b2 : List Nat) :
    runSeq t h sec bodyDesc ⟨out, false, false, b1, b2⟩ =
      ⟨out ++ sectorBlock t h sec, false, false,
       idSpanBytes t h sec.sector_id (sizeCode sec.size),
       dataSpanBytes sec.data⟩ := by
  simp [runSeq, applyDesc, emitCells, bodyDesc, idRegion, dataRegion,
    sectorBlock, syncTriple, gapACells, gapBCells, idSpanBytes, dataSpanBytes,
    syncByte, cellByte, List.append_assoc, map_cellByte_mfm]

/-- The encoder's run over the pre-loop instructions of `esq_6_desc`. -/
theorem preRun (t h : Nat) :
    runSeq t h dummySec preDesc ⟨[], false, false, [], []⟩ =
      ⟨preCells, false, false, [], []⟩ := by
  simp [runSeq, applyDesc, emitCells, preDesc, preCells, List.append_assoc]

/-- The encoder's run over the post-loop instructions of `esq_6_desc`. -/
theorem postRun (t h : Nat) (out : List Cell) (b1 b2 : List Nat) :
    runSeq t h dummySec postDesc ⟨out, false, false, b1, b2⟩ =
      ⟨out ++ postCells, false, false, b1, b2⟩ := by
  simp [runSeq, applyDesc, emitCells, postDesc, postCells]

/-- The full encoded track: leading gap cells, one `sectorBlock` per sector
0–5, trailing gap cells. -/
theorem encodeTrack_expand (t h : Nat) (secs : List SectorSpec) :
    encodeTrack esq_6_desc t h secs =
      preCells ++
      (sectorBlock t h (secs.getD 0 dummySec) ++
      (sectorBlock t h (secs.getD 1 dummySec) ++
      (sectorBlock t h (secs.getD 2 dummySec) ++
      (sectorBlock t h (secs.getD 3 dummySec) ++
      (sectorBlock t h (secs.getD 4 dummySec) ++
      (sectorBlock t h (secs.getD 5 dummySec) ++ postCells)))))) := by
  have h0 : encodeTrack esq_6_desc t h secs =
      (runSeq t h dummySec postDesc
        ((List.range 6).foldl
          (fun st k => runSeq t h (secs.getD (0 + k) dummySec) bodyDesc st)
          (runSeq t h dummySec preDesc ⟨[], false, false, [], []⟩))).out := rfl
  rw [h0, preRun]
  rw [show List.range 6 = [0, 1, 2, 3, 4, 5] from rfl]
  simp only [List.foldl_cons, List.foldl_nil, Nat.zero_add, bodyRun, postRun]
  simp [List.append_assoc]

/-- The sync scan skips a non-sync cell. -/
theorem findSync_cons_not (c : Cell) (l : List Cell) (h : isSync c = false) :
    findSync (c :: l) = findSync l := by
  cases l with
  | nil => simp [findSync, h]
  | cons a l' =>
    cases l' with
    | nil => simp [findSync, h]
    | cons b l'' => simp [findSync, h]

/-- The sync scan skips any sync-free cell run. -/
theorem findSync_append (l r : List Cell)
    (h : (l.all fun c => !isSync c) = true) :
    findSync (l ++ r) = findSync r := by
  induction l with
  | nil => rfl
  | cons c l' ih =>
    rw [List.all_cons, Bool.and_eq_true] at h
    rw [List.cons_append, findSync_cons_not c _ (by simpa using h.1)]
    exact ih h.2

/-- The sync scan fires exactly on the three `0x4489` cells. -/
theorem findSync_syncTriple (r : List Cell) :
    findSync (syncTriple ++ r) = some r := rfl

/-- The pre-loop gap cells contain no `0x4489` sync cell. -/
theorem findSync_preCells (r : List Cell) :
    findSync (preCells ++ r) = findSync r :=
  findSync_append _ _ (by decide)

/-- The inter-field gap contains no sync cell. -/
theorem findSync_gapA (r : List Cell) :
    findSync (gapACells ++ r) = findSync r :=
  findSync_append _ _ (by decide)

/-- The post-data gap contains no sync cell. -/
theorem findSync_gapB (r : List Cell) :
    findSync (gapBCells ++ r) = findSync r :=
  findSync_append _ _ (by decide)

/-- Reading back exactly the modulated bytes just written. -/
theorem readBytes_exact (d : List Nat) (r : List Cell) :
    readBytes d.length (d.map .mfm ++ r) = some (d, r) := by
  induction d with
  | nil => rfl
  | cons b d' ih => simp [readBytes, ih]

/-- Decoding one encoded sector block recovers its id and payload (both
checksum comparisons succeed by construction) and leaves the following gap
cells. -/
theorem decodeSector_block (expected : List Nat) (t h : Nat)
    (sec : SectorSpec) (rest : List Cell)
    (hsz : expected.getD sec.sector_id 0 = sec.data.length) :
    decodeSector expected (sectorBlock t h sec ++ rest) =
      some ((sec.sector_id, sec.data), gapBCells ++ rest) := by
  simp only [sectorBlock, List.append_assoc, decodeSector, findSync_syncTriple,
    crcBytes, idSpanBytes, dataSpanBytes, List.map_cons, List.map_nil,
    List.cons_append, List.nil_append]
  simp only [findSync_gapA, findSync_syncTriple, hsz, readBytes_exact]
  simp [syncByte, cellByte]

/-- The sector decoder ignores a leading sync-free cell run. -/
theorem decodeSector_skip (expected : List Nat) (l cells : List Cell)
    (h : (l.all fun c => !isSync c) = true) :
    decodeSector expected (l ++ cells) = decodeSector expected cells := by
  simp only [decodeSector, findSync_append _ _ h]

/-- Decoding a sync-free lead followed by a run of encoded sector blocks
recovers every block's id and payload in order. -/
theorem decodeTrack_blocks (expected : List Nat) (t h : Nat) :
    ∀ (secs : List SectorSpec) (lead tail : List Cell),
      (lead.all fun c => !isSync c) = true →
      (∀ sec ∈ secs, expected.getD sec.sector_id 0 = sec.data.length) →
      decodeTrack expected secs.length
        (lead ++ secs.foldr (fun sec acc => sectorBlock t h sec ++ acc) tail) =
        secs.map fun sec => (sec.sector_id, sec.data) := by
  intro secs
  induction secs with
  | nil => intro lead tail _ _; rfl
  | cons sec rest ih =>
    intro lead tail hlead hall
    rw [List.foldr_cons]
    have hds : decodeSector expected
        (lead ++ (sectorBlock t h sec ++
          rest.foldr (fun sec acc => sectorBlock t h sec ++ acc) tail)) =
        some ((sec.sector_id, sec.data),
          gapBCells ++
            rest.foldr (fun sec acc => sectorBlock t h sec ++ acc) tail) := by
      rw [decodeSector_skip _ _ _ hlead]
      exact decodeSector_block expected t h sec _
        (hall sec (List.mem_cons_self _ _))
    rw [List.length_cons]
    simp only [decodeTrack, hds]
    rw [List.map_cons]
    congr 1
    exact ih gapBCells tail (by decide)
      fun s hs => hall s (List.mem_cons_of_mem _ hs)

/-- `encodeTrack_expand` for a literal six-sector array. -/
theorem encodeTrack_expand6 (t h : Nat) (s0 s1 s2 s3 s4 s5 : SectorSpec) :
    encodeTrack esq_6_desc t h [s0, s1, s2, s3, s4, s5] =
      preCells ++
      (sectorBlock t h s0 ++
      (sectorBlock t h s1 ++
      (sectorBlock t h s2 ++
      (sectorBlock t h s3 ++
      (sectorBlock t h s4 ++
      (sectorBlock t h s5 ++ postCells)))))) := by
  rw [encodeTrack_expand]
  rfl

/-- **C2.** Round-trip: for the supported geometry (80 tracks and any track
or head id, six sectors of sizes 1024×5 and 512) and every choice of sector
payloads, decoding the encoded track recovers exactly the original payloads
with every `sector_id` correct; the decoder only returns sectors whose
identification-field and data-field checksums validate, so all checksums of
the encoded image are valid. -/
theorem c2_round_trip (t h : Nat) (d0 d1 d2 d3 d4 d5 : List Nat)
    (h0 : d0.length = 1024) (h1 : d1.length = 1024) (h2 : d2.length = 1024)
    (h3 : d3.length = 1024) (h4 : d4.length = 1024) (h5 : d5.length = 512) :
    decodeTrack esqSizes 6
      (encodeTrack esq_6_desc t h (esqSectors [d0, d1, d2, d3, d4, d5])) =
      [(0, d0), (1, d1), (2, d2), (3, d3), (4, d4), (5, d5)] := by
  have hsecs : esqSectors [d0, d1, d2, d3, d4, d5] =
      [⟨0, 1024, d0⟩, ⟨1, 1024, d1⟩, ⟨2, 1024, d2⟩,
       ⟨3, 1024, d3⟩, ⟨4, 1024, d4⟩, ⟨5, 512, d5⟩] := rfl
  have hmem : ∀ sec ∈ ([⟨0, 1024, d0⟩, ⟨1, 1024, d1⟩, ⟨2, 1024, d2⟩,
      ⟨3, 1024, d3⟩, ⟨4, 1024, d4⟩, ⟨5, 512, d5⟩] : List SectorSpec),
      esqSizes.getD sec.sector_id 0 = sec.data.length := by
    intro sec hs
    simp only [List.mem_cons, List.not_mem_nil, or_false] at hs
    rcases hs with rfl | rfl | rfl | rfl | rfl | rfl <;>
      simp [esqSizes, h0, h1, h2, h3, h4, h5]
  have e := decodeTrack_blocks esqSizes t h
    [⟨0, 1024, d0⟩, ⟨1, 1024, d1⟩, ⟨2, 1024, d2⟩,
     ⟨3, 1024, d3⟩, ⟨4, 1024, d4⟩, ⟨5, 512, d5⟩]
    preCells postCells (by decide) hmem
  simp only [List.foldr_cons, List.foldr_nil, List.map_cons, List.map_nil,
    List.length_cons, List.length_nil] at e
  rw [hsecs, encodeTrack_expand6]
  exact e

/-- Witness for C2: concrete payloads (each byte the sector id) round-trip
through the codec. -/
theorem c2_round_trip_witness :
    decodeTrack esqSizes 6
      (encodeTrack esq_6_desc 0 0 (esqSectors
        [List.replicate 1024 0, List.replicate 1024 1, List.replicate 1024 2,
         List.replicate 1024 3, List.replicate 1024 4,
         List.replicate 512 5])) =
      [(0, List.replicate 1024 0), (1, List.replicate 1024 1),
       (2, List.replicate 1024 2), (3, List.replicate 1024 3),
       (4, List.replicate 1024 4), (5, List.replicate 512 5)] :=
  c2_round_trip 0 0 _ _ _ _ _ _ (List.length_replicate 1024 0)
    (List.length_replicate 1024 1) (List.length_replicate 1024 2)
    (List.length_replicate 1024 3) (List.length_replicate 1024 4)
    (List.length_replicate 512 5)

end Esq8
